import Mathlib

/-!
Verification of the discovery-to-generation pipeline of this repository
(`src/terraform_discovery.py` and `src/terraform_generator.py`).

The Python code is embedded shallowly:

* Python `dict`s (insertion ordered, unique keys) become association lists
  over `String` keys, with `dictLookup`/`dictSet` mirroring item access and
  item assignment.
* The discovery snapshot JSON (top-level keys are resource kinds, each a
  list of `\x7btype, id, data, tags\x7d` objects) becomes
  `List (String × List Resource)`.  Of the raw provider `data` payload we
  model exactly the fields the pipeline reads: the placement availability
  zone (`data.Placement.AvailabilityZone`), the state
  (`data.State.Name` respectively `data.State`), and the record zone id.
* The filesystem is abstracted: a directory listing is
  `Option (List SnapshotFile)` (`none` when the directory is absent), and a
  file has a name, a modification time and a parsed JSON content.
* The AWS client is abstracted per probe as an `Except ClientError`
  response value; `botocore` `ClientError` handling becomes the
  `Except.error` branch.
-/

/-- Association-list model of a Python dict lookup (`d[k]` / `k in d`). -/
def dictLookup {α : Type} : List (String × α) → String → Option α
  | [], _ => none
  | (k0, v) :: rest, k => if k0 = k then some v else dictLookup rest k

/-- Association-list model of Python dict item assignment `d[k] = v`:
updates the value in place when the key exists, otherwise appends the new
key at the end (insertion order). -/
def dictSet {α : Type} : List (String × α) → String → α → List (String × α)
  | [], k, v => [(k, v)]
  | (k0, v0) :: rest, k, v =>
    if k0 = k then (k0, v) :: rest else (k0, v0) :: dictSet rest k v

/-- One discovered resource, the `\x7btype, id, data, tags\x7d` objects the
probes build.  `az`, `state` and `zoneRef` are the only parts of the raw
`data` payload the pipeline reads; `region` is absent at discovery time and
filled in by the snapshot loader. -/
structure Resource where
  type : String
  id : String
  tags : List (String × String) := []
  az : Option String := none
  state : Option String := none
  zoneRef : Option String := none
  region : Option String := none
deriving DecidableEq

/-- The snapshot dictionary type: resource kind to list of resources. -/
abbrev ResourceDict := List (String × List Resource)

/-- List of resources stored in `d` under kind `k` (empty when absent),
modelling `d.get(k, [])`. -/
def getKind (d : ResourceDict) (k : String) : List Resource :=
  (dictLookup d k).getD []

/-- Model of the generator merge step
`all_resources.setdefault(rt, []).append(r)` pattern from
`_load_all_discovered_resources`: ensure the kind key exists, then append
one resource at its end. -/
def appendKind (d : ResourceDict) (k : String) (r : Resource) : ResourceDict :=
  dictSet d k (getKind d k ++ [r])

/-- Characters kept by the sanitizer regex class `[a-zA-Z0-9_-]`. -/
def isTfNameChar (c : Char) : Bool :=
  c.isAlpha || c.isDigit || c == '_' || c == '-'

/-- One step of `re.sub(r'[^a-zA-Z0-9_-]', '_', name)`: keep a character of
the class, replace any other character by an underscore. -/
def sanitizeChar (c : Char) : Char :=
  if isTfNameChar c then c else '_'

/-- The literal prefix `resource_` used by `_sanitize_name`. -/
def resourceNamePrefix : List Char := "resource_".data

/-- Model of `TerraformGenerator._sanitize_name`: substitute characters
outside `[a-zA-Z0-9_-]` by `_`, prefix `resource_` when the (nonempty)
result does not start with a letter, then lowercase the result.  Python
`str.lower()` is modelled by `Char.toLower`, which agrees with it on the
ASCII-only strings produced by the substitution step. -/
def sanitizeName (s : String) : String :=
  let t := s.data.map sanitizeChar
  let u := if t ≠ [] ∧ ¬ (t.headI).isAlpha then resourceNamePrefix ++ t else t
  String.mk (u.map Char.toLower)

/-- Decimal rendering of a natural number, most significant digit first,
with a structural fuel argument (the fuel is always sufficient at the call
site in `natToString`).  Models the decimal rendering done by the Python
f-string `f"\x7bname\x7d_\x7bcounter\x7d"`. -/
def natToDigitsCore : Nat → Nat → List Char → List Char
  | 0, _, acc => acc
  | fuel + 1, n, acc =>
    let acc1 := Nat.digitChar (n % 10) :: acc
    if n < 10 then acc1 else natToDigitsCore fuel (n / 10) acc1

/-- Decimal string of a natural number (Python `str(n)`). -/
def natToString (n : Nat) : String :=
  String.mk (natToDigitsCore (n + 1) n [])

/-- Base symbolic name of a resource before collision handling, as computed
inside `_get_resource_name`: the sanitized `Name` tag value when present,
otherwise the sanitized provider id.  (Snapshot entries always carry an
`id`, so the `resource.get('id', ...)` fallback default is never taken.) -/
def baseResourceName (r : Resource) : String :=
  match dictLookup r.tags "Name" with
  | some v => sanitizeName v
  | none => sanitizeName r.id

/-- Model of `TerraformGenerator._get_resource_name` together with the
`self.resource_names` counter dict it mutates: when the base name was
already assigned, bump its counter and append `_<counter>`; otherwise
record the base name with counter `0` and use it unchanged. -/
def getResourceName (names : List (String × Nat)) (r : Resource) :
    String × List (String × Nat) :=
  let name := baseResourceName r
  match dictLookup names name with
  | some c => (name ++ "_" ++ natToString (c + 1), dictSet names name (c + 1))
  | none => (name, dictSet names name 0)

/-- Resolve a list of resources in order, threading the counter dict. -/
def resolveNamesFrom : List (String × Nat) → List Resource → List String
  | _, [] => []
  | names, r :: rs =>
    let p := getResourceName names r
    p.1 :: resolveNamesFrom p.2 rs

/-- One generation run of the name resolver, starting (as `__init__` does)
from an empty counter dict. -/
def resolveNames (rs : List Resource) : List String :=
  resolveNamesFrom [] rs

/-- Counter dict obtained after resolving `rs` starting from `names`. -/
def nameStateAfter (names : List (String × Nat)) (rs : List Resource) :
    List (String × Nat) :=
  rs.foldl (fun st r => (getResourceName st r).2) names

/-- Replace every occurrence of the character `a` by `b` (Python
`str.replace` with a single-character pattern). -/
def replaceChar (a b : Char) (s : String) : String :=
  String.mk (s.data.map (fun c => if c = a then b else c))

/-- Remove every occurrence of the substring `aws_`, scanning left to
right (Python `str.replace('aws_', '')`). -/
def removeAws : List Char → List Char
  | 'a' :: 'w' :: 's' :: '_' :: rest => removeAws rest
  | c :: rest => c :: removeAws rest
  | [] => []

/-- Python `str.startswith`. -/
def startsWithStr (p s : String) : Bool :=
  p.data.isPrefixOf s.data

/-- Python `str.endswith`. -/
def endsWithStr (p s : String) : Bool :=
  p.data.isSuffixOf s.data

/-- Model of `TerraformGenerator._generate_safe_resource_name`: the id with
`-` and `.` replaced by `_`, prefixed by the resource type stripped of
`aws_`. -/
def generateSafeResourceName (resourceType resourceId : String) : String :=
  let safeId := replaceChar '.' '_' (replaceChar '-' '_' resourceId)
  let typePrefix :=
    if startsWithStr "aws_" resourceType then String.mk (removeAws resourceType.data)
    else resourceType
  typePrefix ++ "_" ++ safeId

/-- Model of the effective `TerraformGenerator._generate_import_block` (the
second definition of that method in the class, which shadows the earlier
per-kind one): an import block for any resource with a non-empty type and
id, named by `_generate_safe_resource_name`; the empty string otherwise. -/
def generateImportBlock (r : Resource) : String :=
  if r.type = "" ∨ r.id = "" then ""
  else
    "import \x7b\n  to = " ++ r.type ++ "." ++ generateSafeResourceName r.type r.id ++
      "\n  id = \"" ++ r.id ++ "\"\n\x7d"

/-- Model of the effective `TerraformGenerator._generate_resource_block`
(again the second, shadowing definition): a placeholder declaration block
for any resource with a non-empty type and id. -/
def generateResourceBlock (r : Resource) (providerAlias : String) : String :=
  if r.type = "" ∨ r.id = "" then ""
  else
    "resource \"" ++ r.type ++ "\" \"" ++ generateSafeResourceName r.type r.id ++
      "\" \x7b\n  provider = aws." ++ providerAlias ++
      "\n  # Resource configuration would be generated here\n  # This is a placeholder - full configuration needs to be implemented\n\x7d"

/-- All resources of a snapshot dictionary in iteration order. -/
def allResourcesOf (d : ResourceDict) : List Resource :=
  d.flatMap (fun kv => kv.2)

/-- Model of `_generate_import_blocks`: one block per discovered resource,
keeping only the truthy (non-empty) renderings.  The caller joins the list
with newlines into `main.tf`; we keep the list. -/
def generateImportBlocks (d : ResourceDict) : List String :=
  ((allResourcesOf d).map generateImportBlock).filter (fun s => s != "")

/-- Model of `_generate_resource_blocks` (provider alias fixed to
`us_east_1` as in the source). -/
def generateResourceBlocks (d : ResourceDict) : List String :=
  ((allResourcesOf d).map (fun r => generateResourceBlock r "us_east_1")).filter
    (fun s => s != "")

/-- One file of the discovery-output directory: its name, its modification
time, and its parsed JSON content.  The modification time is carried so
that theorems can state whether the loader consults it. -/
structure SnapshotFile where
  name : String
  mtime : Nat
  content : ResourceDict
deriving DecidableEq

/-- The filename filter of `_load_all_discovered_resources`. -/
def isDiscoveryFileName (n : String) : Bool :=
  startsWithStr "discovered_resources_" n && endsWithStr ".json" n

/-- Model of `TerraformGenerator._determine_region_from_resources`: look at
the first EC2 instance's availability zone and map its prefix to a known
region; everything else (no instances, no placement data, unknown prefix,
the dead VPC branch) falls back to `us-east-1`. -/
def determineRegionFromResources (content : ResourceDict) : String :=
  match dictLookup content "ec2_instances" with
  | some (inst :: _) =>
    match inst.az with
    | some az =>
      if startsWithStr "us-east-1" az then "us-east-1"
      else if startsWithStr "us-east-2" az then "us-east-2"
      else if startsWithStr "us-west-2" az then "us-west-2"
      else "us-east-1"
    | none => "us-east-1"
  | _ => "us-east-1"

/-- Result of the snapshot loader: the merged `all_resources` dict and the
region keys of `self.regions` in first-seen order (the nested per-region
dict is only used to derive the per-region output files, for which the
keys suffice). -/
structure LoadResult where
  allResources : ResourceDict
  regionKeys : List String
deriving DecidableEq

/-- Loading of one discovery file inside the loop of
`_load_all_discovered_resources`: infer the region from the content, then
append every resource (annotated with that region) to the merged dict. -/
def loadSnapshotFile (acc : LoadResult) (f : SnapshotFile) : LoadResult :=
  let region := determineRegionFromResources f.content
  let regionKeys :=
    if acc.regionKeys.contains region then acc.regionKeys
    else acc.regionKeys ++ [region]
  let allResources :=
    f.content.foldl
      (fun a kv =>
        kv.2.foldl (fun a2 r => appendKind a2 kv.1 { r with region := some region }) a)
      acc.allResources
  ⟨allResources, regionKeys⟩

/-- Model of `TerraformGenerator._load_all_discovered_resources`.  `none`
models an absent `terraform_output` directory.  Both error branches log and
return the empty dict; otherwise every matching file is loaded and merged
in listing order. -/
def loadAllDiscoveredResources (listing : Option (List SnapshotFile)) : LoadResult :=
  match listing with
  | none => ⟨[], []⟩
  | some files =>
    let discoveryFiles := files.filter (fun f => isDiscoveryFileName f.name)
    if discoveryFiles.isEmpty then ⟨[], []⟩
    else discoveryFiles.foldl loadSnapshotFile ⟨[], []⟩

/-- Region alias used for file names, `region.replace('-', '_')`. -/
def regionAliasOf (region : String) : String :=
  replaceChar '-' '_' region

/-- Observable outcome of the `generate` entry point (`main` of
`terraform_generator.py`): the process exit code, the configuration files
written by `generate_all_configurations`, and the loaded resource dict. -/
structure GeneratorRun where
  exitCode : Nat
  filesWritten : List String
  resources : ResourceDict
deriving DecidableEq

/-- Model of the `generate` entry point: construct the generator (which
loads the snapshots, returning an empty dict on a missing directory or
missing files), then write `main.tf`, `variables.tf`, `outputs.tf`,
`providers.tf`, one file per region key, and the module placeholder.  The
function never raises, so the process exit code is always `0`. -/
def terraformGeneratorMain (listing : Option (List SnapshotFile)) : GeneratorRun :=
  let lr := loadAllDiscoveredResources listing
  { exitCode := 0
    filesWritten :=
      ["terraform/main.tf", "terraform/variables.tf", "terraform/outputs.tf",
        "terraform/providers.tf"] ++
        lr.regionKeys.map (fun rg => "terraform/" ++ regionAliasOf rg ++ ".tf") ++
        ["terraform/modules/example.tf"]
    resources := lr.allResources }

/-- Raw EC2 instance as returned inside `describe_instances` reservations;
the fields the probe reads. -/
structure Ec2Instance where
  instanceId : String
  stateName : String
  availabilityZone : Option String := none
  rawTags : List (String × String) := []
deriving DecidableEq

/-- One reservation of `describe_instances`. -/
structure Reservation where
  instances : List Ec2Instance
deriving DecidableEq

/-- Raw EBS volume of `describe_volumes`. -/
structure VolumeRaw where
  volumeId : String
  state : String
  rawTags : List (String × String) := []
deriving DecidableEq

/-- Raw NAT gateway of `describe_nat_gateways`. -/
structure NatGatewayRaw where
  natGatewayId : String
  state : String
  rawTags : List (String × String) := []
deriving DecidableEq

/-- Raw VPC of `describe_vpcs`. -/
structure VpcRaw where
  vpcId : String
  rawTags : List (String × String) := []
deriving DecidableEq

/-- The tag-flattening dict comprehension
`\x7btag['Key']: tag['Value'] for tag in ...\x7d` (later keys win). -/
def tagsToMap (l : List (String × String)) : List (String × String) :=
  l.foldl (fun d kv => dictSet d kv.1 kv.2) []

/-- The resource record built for one kept EC2 instance. -/
def instanceResource (i : Ec2Instance) : Resource :=
  { type := "aws_instance", id := i.instanceId, tags := tagsToMap i.rawTags,
    az := i.availabilityZone, state := some i.stateName }

/-- Model of the loop body of `TerraformDiscovery.discover_ec2_instances`:
walk all reservations and keep every instance whose state is not
`terminated` and not `shutting-down`. -/
def discoverEc2Instances (reservations : List Reservation) : List Resource :=
  reservations.foldl
    (fun acc res =>
      res.instances.foldl
        (fun acc2 i =>
          if i.stateName = "terminated" ∨ i.stateName = "shutting-down" then acc2
          else acc2 ++ [instanceResource i])
        acc)
    []

/-- The resource record built for one kept EBS volume. -/
def volumeResource (v : VolumeRaw) : Resource :=
  { type := "aws_ebs_volume", id := v.volumeId, tags := tagsToMap v.rawTags,
    state := some v.state }

/-- Model of the loop body of `TerraformDiscovery.discover_volumes`: keep
every volume whose state is not `deleted` and not `deleting`. -/
def discoverVolumes (volumes : List VolumeRaw) : List Resource :=
  volumes.foldl
    (fun acc v =>
      if v.state = "deleted" ∨ v.state = "deleting" then acc
      else acc ++ [volumeResource v])
    []

/-- The resource record built for one kept NAT gateway. -/
def natGatewayResource (g : NatGatewayRaw) : Resource :=
  { type := "aws_nat_gateway", id := g.natGatewayId, tags := tagsToMap g.rawTags,
    state := some g.state }

/-- Model of the loop body of `TerraformDiscovery.discover_nat_gateways`:
keep every NAT gateway whose state is not `deleted` and not `deleting`. -/
def discoverNatGateways (gateways : List NatGatewayRaw) : List Resource :=
  gateways.foldl
    (fun acc g =>
      if g.state = "deleted" ∨ g.state = "deleting" then acc
      else acc ++ [natGatewayResource g])
    []

/-- The resource record built for one VPC. -/
def vpcResource (v : VpcRaw) : Resource :=
  { type := "aws_vpc", id := v.vpcId, tags := tagsToMap v.rawTags }

/-- A provider (botocore) client error; caught per probe. -/
inductive ClientError
  | clientError (msg : String)
deriving DecidableEq

/-- A fatal filesystem error of the snapshot write. -/
inductive IoError
  | fileNotFound
deriving DecidableEq

/-- One probe of the discovery coordinator: a resource kind and the
computation of its resource list from the resources discovered so far
(only the Route 53 record probe actually reads the latter), which can fail
with a provider error. -/
structure Probe where
  kind : String
  run : ResourceDict → Except ClientError (List Resource)

/-- One iteration of the coordinator: the try/except body of each
`discover_*` method.  On success the probe assigns
`self.discovered_resources[kind]`; on a `ClientError` it only logs, so the
dict is left untouched and the run continues. -/
def probeStep (d : ResourceDict) (p : Probe) : ResourceDict :=
  match p.run d with
  | Except.ok rs => dictSet d p.kind rs
  | Except.error _ => d

/-- The probe phase of `TerraformDiscovery.discover_all_resources`: run
every probe in order against the accumulated dict, starting empty. -/
def runProbes (ps : List Probe) : ResourceDict :=
  ps.foldl probeStep []

/-- EC2 instance probe over an abstracted `describe_instances` response. -/
def ec2Probe (resp : Except ClientError (List Reservation)) : Probe :=
  ⟨"ec2_instances", fun _ => resp.map discoverEc2Instances⟩

/-- VPC probe over an abstracted `describe_vpcs` response. -/
def vpcsProbe (resp : Except ClientError (List VpcRaw)) : Probe :=
  ⟨"vpcs", fun _ => resp.map (fun vs => vs.map vpcResource)⟩

/-- Volume probe over an abstracted `describe_volumes` response. -/
def volumesProbe (resp : Except ClientError (List VolumeRaw)) : Probe :=
  ⟨"volumes", fun _ => resp.map discoverVolumes⟩

/-- NAT gateway probe over an abstracted `describe_nat_gateways`
response. -/
def natGatewaysProbe (resp : Except ClientError (List NatGatewayRaw)) : Probe :=
  ⟨"nat_gateways", fun _ => resp.map discoverNatGateways⟩

/-- A probe that raises a provider error on every state of the run. -/
def probeFails (p : Probe) : Prop :=
  ∀ d, ∃ e, p.run d = Except.error e

/-- A probe that returns normally on every state of the run. -/
def probeSucceeds (p : Probe) : Prop :=
  ∀ d, ∃ rs, p.run d = Except.ok rs

/-- Model of `TerraformDiscovery._save_discovery_results`: open
`terraform_output/discovered_resources_<timestamp>.json` for writing.  The
discovery module never creates that directory (its own test suite creates
it with `os.makedirs` before calling this method), so when it is absent
the `open(..., 'w')` raises an uncaught file error. -/
def saveDiscoveryResults (outputDirExists : Bool) (timestamp : String) :
    Except IoError String :=
  if outputDirExists then
    Except.ok ("terraform_output/discovered_resources_" ++ timestamp ++ ".json")
  else Except.error IoError.fileNotFound

/-- Model of `TerraformDiscovery.discover_all_resources`: run all probes
(each with its local error handling), then persist the snapshot.  The
result is the discovered dict plus the written filename, or the uncaught
file error of the save step. -/
def discoverAllResources (ps : List Probe) (outputDirExists : Bool)
    (timestamp : String) : Except IoError (ResourceDict × String) :=
  let d := runProbes ps
  match saveDiscoveryResults outputDirExists timestamp with
  | Except.ok fn => Except.ok (d, fn)
  | Except.error e => Except.error e

/-- Placeholder resource used as the default of list indexing in
statements about name resolution. -/
def dummyResource : Resource :=
  { type := "", id := "" }

/-- Measure of the resolver counter dict at one base name: `0` while the
base name is unassigned, `c + 1` once its counter is `c`.  The measure
strictly increases each time the resolver assigns that base name. -/
def nameCounterMeasure (names : List (String × Nat)) (b : String) : Nat :=
  match dictLookup names b with
  | none => 0
  | some c => c + 1

/-- A concrete three-probe run in which the VPC probe hits a provider
error while the instance and volume probes succeed. -/
def c7DemoProbes : List Probe :=
  [ec2Probe (Except.ok [⟨[⟨"i-1", "running", none, []⟩]⟩]),
   vpcsProbe (Except.error (ClientError.clientError "AccessDenied")),
   volumesProbe (Except.ok [])]

/-! Concrete inputs used in counterexamples and witnesses. -/

/-- A running instance tagged `Name=web`. -/
def webInstanceA : Resource :=
  { type := "aws_instance", id := "i-0001", tags := [("Name", "web")],
    state := some "running" }

/-- A second running instance tagged `Name=web`. -/
def webInstanceB : Resource :=
  { type := "aws_instance", id := "i-0002", tags := [("Name", "web")],
    state := some "running" }

/-- A resource whose `Name` tag sanitizes to `web_1`, colliding with the
suffixed name of a previous resource. -/
def webInstanceC : Resource :=
  { type := "aws_instance", id := "i-0003", tags := [("Name", "web_1")],
    state := some "running" }

/-- Snapshot dict holding the two `Name=web` instances. -/
def twoWebSnapshot : ResourceDict :=
  [("ec2_instances", [webInstanceA, webInstanceB])]

/-- Instance contained in the older of two same-region snapshot files. -/
def c2OldInstance : Resource :=
  { type := "aws_instance", id := "i-old", az := some "us-east-1a" }

/-- Instance contained in the newer of two same-region snapshot files. -/
def c2NewInstance : Resource :=
  { type := "aws_instance", id := "i-new", az := some "us-east-1b" }

/-- The older discovery file (modification time 1). -/
def c2OldFile : SnapshotFile :=
  { name := "discovered_resources_20240101_000000.json", mtime := 1,
    content := [("ec2_instances", [c2OldInstance])] }

/-- The newer discovery file of the same region (modification time 2). -/
def c2NewFile : SnapshotFile :=
  { name := "discovered_resources_20240202_000000.json", mtime := 2,
    content := [("ec2_instances", [c2NewInstance])] }

/-- The discovered resource of the unsupported kind `aws_ebs_snapshot`:
inventoried by the snapshot probe but having no per-kind rendering rule. -/
def c3SnapshotResource : Resource :=
  { type := "aws_ebs_snapshot", id := "snap-1", state := some "completed" }

/-- A snapshot holding one resource of each of the fourteen supported kinds
plus one resource of the unsupported kind `aws_ebs_snapshot`, keyed the way
discovery writes them. -/
def c3Snapshot : ResourceDict :=
  [("ec2_instances", [{ type := "aws_instance", id := "i-1" }]),
   ("vpcs", [{ type := "aws_vpc", id := "vpc-1" }]),
   ("subnets", [{ type := "aws_subnet", id := "subnet-1" }]),
   ("security_groups", [{ type := "aws_security_group", id := "sg-1" }]),
   ("route_tables", [{ type := "aws_route_table", id := "rtb-1" }]),
   ("internet_gateways", [{ type := "aws_internet_gateway", id := "igw-1" }]),
   ("nat_gateways", [{ type := "aws_nat_gateway", id := "nat-1" }]),
   ("elastic_ips", [{ type := "aws_eip", id := "eipalloc-1" }]),
   ("volumes", [{ type := "aws_ebs_volume", id := "vol-1" }]),
   ("snapshots", [c3SnapshotResource]),
   ("route53_zones", [{ type := "aws_route53_zone", id := "Z1" }]),
   ("route53_records",
     [{ type := "aws_route53_record", id := "Z1_www.example.com._A",
        zoneRef := some "/hostedzone/Z1" }]),
   ("s3_buckets", [{ type := "aws_s3_bucket", id := "bucket-1" }]),
   ("iam_roles", [{ type := "aws_iam_role", id := "role-1" }]),
   ("iam_policies", [{ type := "aws_iam_policy", id := "policy-1" }])]

/-! Helper lemmas about the association-list dict model. -/

theorem dictLookup_dictSet {α : Type} (d : List (String × α)) (k k2 : String) (v : α) :
    dictLookup (dictSet d k v) k2 = if k = k2 then some v else dictLookup d k2 := by
  induction d with
  | nil =>
    simp only [dictSet, dictLookup]
  | cons kv rest ih =>
    obtain ⟨k0, v0⟩ := kv
    by_cases h0 : k0 = k
    · subst h0
      simp only [dictSet, if_pos rfl, dictLookup]
      by_cases h2 : k0 = k2 <;> simp [h2]
    · simp only [dictSet, if_neg h0, dictLookup, ih]
      by_cases h2 : k0 = k2
      · subst h2
        have hk : ¬ (k = k0) := fun h => h0 h.symm
        simp [hk]
      · simp [h2]

theorem getKind_appendKind (d : ResourceDict) (k k2 : String) (r : Resource) :
    getKind (appendKind d k r) k2 =
      if k = k2 then getKind d k2 ++ [r] else getKind d k2 := by
  unfold appendKind getKind
  rw [dictLookup_dictSet]
  by_cases h : k = k2
  · subst h
    simp
  · simp [h]

theorem getKind_nil (k : String) : getKind [] k = [] := rfl

/-! Helper lemmas about the probe runner of the discovery coordinator. -/

theorem dictLookup_probeStep_of_ne (d : ResourceDict) (p : Probe) (k : String)
    (hk : p.kind ≠ k) : dictLookup (probeStep d p) k = dictLookup d k := by
  unfold probeStep
  cases hrun : p.run d with
  | ok rs => rw [dictLookup_dictSet, if_neg hk]
  | error e => rfl

theorem dictLookup_foldl_probeStep_none (ps : List Probe) (d : ResourceDict)
    (k : String) (hd : dictLookup d k = none)
    (hf : ∀ q ∈ ps, q.kind = k → probeFails q) :
    dictLookup (ps.foldl probeStep d) k = none := by
  induction ps generalizing d with
  | nil => exact hd
  | cons p rest ih =>
    rw [List.foldl_cons]
    refine ih (probeStep d p) ?_ (fun q hq hk => hf q (List.mem_cons_of_mem p hq) hk)
    by_cases hk : p.kind = k
    · obtain ⟨e, he⟩ := hf p (List.mem_cons_self p rest) hk d
      unfold probeStep
      rw [he]
      exact hd
    · rw [dictLookup_probeStep_of_ne d p k hk]
      exact hd

theorem isSome_foldl_probeStep (ps : List Probe) (d : ResourceDict) (k : String)
    (hd : (dictLookup d k).isSome = true) :
    (dictLookup (ps.foldl probeStep d) k).isSome = true := by
  induction ps generalizing d with
  | nil => exact hd
  | cons p rest ih =>
    rw [List.foldl_cons]
    refine ih (probeStep d p) ?_
    unfold probeStep
    cases hrun : p.run d with
    | ok rs =>
      rw [dictLookup_dictSet]
      by_cases hk : p.kind = k
      · simp [hk]
      · simp only [if_neg hk]
        exact hd
    | error e => exact hd

theorem isSome_foldl_probeStep_of_mem (ps : List Probe) (d : ResourceDict)
    (q : Probe) (hq : q ∈ ps) (hok : probeSucceeds q) :
    (dictLookup (ps.foldl probeStep d) q.kind).isSome = true := by
  induction ps generalizing d with
  | nil => cases hq
  | cons p rest ih =>
    rw [List.foldl_cons]
    rcases List.mem_cons.mp hq with hqp | hqrest
    · subst hqp
      refine isSome_foldl_probeStep rest (probeStep d q) q.kind ?_
      obtain ⟨rs, hrs⟩ := hok d
      unfold probeStep
      rw [hrs, dictLookup_dictSet, if_pos rfl]
      rfl
    · exact ih (probeStep d p) hqrest

/-! Characterizations of the terminal-state filtering done by the probes. -/

theorem volumes_foldl_eq (vols : List VolumeRaw) (acc : List Resource) :
    (vols.foldl
      (fun acc v =>
        if v.state = "deleted" ∨ v.state = "deleting" then acc
        else acc ++ [volumeResource v]) acc)
      = acc ++
        ((vols.filter (fun v => !(v.state == "deleted" || v.state == "deleting"))).map
          volumeResource) := by
  induction vols generalizing acc with
  | nil => simp
  | cons v vs ih =>
    rw [List.foldl_cons]
    by_cases h : v.state = "deleted" ∨ v.state = "deleting"
    · have hb : (!(v.state == "deleted" || v.state == "deleting")) = false := by
        simp only [Bool.not_eq_false', Bool.or_eq_true, beq_iff_eq]
        exact h
      rw [if_pos h, ih, List.filter_cons, hb]
      simp
    · have hb : (!(v.state == "deleted" || v.state == "deleting")) = true := by
        simp only [Bool.not_eq_true', Bool.or_eq_false_iff, beq_eq_false_iff_ne]
        exact ⟨fun hd => h (Or.inl hd), fun hd => h (Or.inr hd)⟩
      rw [if_neg h, ih, List.filter_cons, hb]
      simp

theorem discoverVolumes_eq (vols : List VolumeRaw) :
    discoverVolumes vols =
      ((vols.filter (fun v => !(v.state == "deleted" || v.state == "deleting"))).map
        volumeResource) := by
  unfold discoverVolumes
  rw [volumes_foldl_eq]
  simp

theorem natGateways_foldl_eq (gs : List NatGatewayRaw) (acc : List Resource) :
    (gs.foldl
      (fun acc g =>
        if g.state = "deleted" ∨ g.state = "deleting" then acc
        else acc ++ [natGatewayResource g]) acc)
      = acc ++
        ((gs.filter (fun g => !(g.state == "deleted" || g.state == "deleting"))).map
          natGatewayResource) := by
  induction gs generalizing acc with
  | nil => simp
  | cons g gs ih =>
    rw [List.foldl_cons]
    by_cases h : g.state = "deleted" ∨ g.state = "deleting"
    · have hb : (!(g.state == "deleted" || g.state == "deleting")) = false := by
        simp only [Bool.not_eq_false', Bool.or_eq_true, beq_iff_eq]
        exact h
      rw [if_pos h, ih, List.filter_cons, hb]
      simp
    · have hb : (!(g.state == "deleted" || g.state == "deleting")) = true := by
        simp only [Bool.not_eq_true', Bool.or_eq_false_iff, beq_eq_false_iff_ne]
        exact ⟨fun hd => h (Or.inl hd), fun hd => h (Or.inr hd)⟩
      rw [if_neg h, ih, List.filter_cons, hb]
      simp

theorem discoverNatGateways_eq (gs : List NatGatewayRaw) :
    discoverNatGateways gs =
      ((gs.filter (fun g => !(g.state == "deleted" || g.state == "deleting"))).map
        natGatewayResource) := by
  unfold discoverNatGateways
  rw [natGateways_foldl_eq]
  simp

theorem instances_foldl_eq (is : List Ec2Instance) (acc : List Resource) :
    (is.foldl
      (fun acc2 i =>
        if i.stateName = "terminated" ∨ i.stateName = "shutting-down" then acc2
        else acc2 ++ [instanceResource i]) acc)
      = acc ++
        ((is.filter
          (fun i => !(i.stateName == "terminated" || i.stateName == "shutting-down"))).map
          instanceResource) := by
  induction is generalizing acc with
  | nil => simp
  | cons i is ih =>
    rw [List.foldl_cons]
    by_cases h : i.stateName = "terminated" ∨ i.stateName = "shutting-down"
    · have hb : (!(i.stateName == "terminated" || i.stateName == "shutting-down")) = false := by
        simp only [Bool.not_eq_false', Bool.or_eq_true, beq_iff_eq]
        exact h
      rw [if_pos h, ih, List.filter_cons, hb]
      simp
    · have hb : (!(i.stateName == "terminated" || i.stateName == "shutting-down")) = true := by
        simp only [Bool.not_eq_true', Bool.or_eq_false_iff, beq_eq_false_iff_ne]
        exact ⟨fun hd => h (Or.inl hd), fun hd => h (Or.inr hd)⟩
      rw [if_neg h, ih, List.filter_cons, hb]
      simp

theorem discoverEc2Instances_eq (rs : List Reservation) :
    discoverEc2Instances rs =
      (((rs.flatMap (fun res => res.instances)).filter
        (fun i => !(i.stateName == "terminated" || i.stateName == "shutting-down"))).map
        instanceResource) := by
  unfold discoverEc2Instances
  have haux : ∀ (l : List Reservation) (acc : List Resource),
      (l.foldl
        (fun acc res =>
          res.instances.foldl
            (fun acc2 i =>
              if i.stateName = "terminated" ∨ i.stateName = "shutting-down" then acc2
              else acc2 ++ [instanceResource i]) acc) acc)
        = acc ++
          (((l.flatMap (fun res => res.instances)).filter
            (fun i => !(i.stateName == "terminated" || i.stateName == "shutting-down"))).map
            instanceResource) := by
    intro l
    induction l with
    | nil => simp
    | cons res rest ih =>
      intro acc
      rw [List.foldl_cons, instances_foldl_eq, ih, List.flatMap_cons, List.filter_append,
        List.map_append, List.append_assoc]
  rw [haux]
  simp

/-! Characterization of the snapshot-loader merge. -/

theorem getKind_inner_fold (rs : List Resource) (a : ResourceDict) (kt k : String)
    (reg : String) :
    getKind
      (rs.foldl (fun a2 r => appendKind a2 kt { r with region := some reg }) a) k
      = getKind a k ++
        (if kt = k then rs.map (fun r => { r with region := some reg }) else []) := by
  induction rs generalizing a with
  | nil => simp
  | cons r rest ih =>
    rw [List.foldl_cons, ih, getKind_appendKind]
    by_cases h : kt = k
    · simp [h]
    · simp [h]

theorem getKind_content_fold (content : ResourceDict) (a : ResourceDict) (k : String)
    (reg : String) :
    getKind
      (content.foldl
        (fun a kv =>
          kv.2.foldl (fun a2 r => appendKind a2 kv.1 { r with region := some reg }) a)
        a) k
      = getKind a k ++
        ((content.filter (fun kv => kv.1 == k)).flatMap
          (fun kv => kv.2.map (fun r => { r with region := some reg }))) := by
  induction content generalizing a with
  | nil => simp
  | cons kv rest ih =>
    rw [List.foldl_cons, ih, getKind_inner_fold, List.filter_cons]
    by_cases h : kv.1 = k
    · have hb : (kv.1 == k) = true := beq_iff_eq.mpr h
      rw [if_pos h, hb]
      simp [List.append_assoc]
    · have hb : (kv.1 == k) = false := beq_eq_false_iff_ne.mpr h
      rw [if_neg h, hb]
      simp

/-- Resources of kind `k` that loading one snapshot file contributes, in
order and annotated with the inferred region. -/
theorem getKind_loadSnapshotFile (acc : LoadResult) (f : SnapshotFile) (k : String) :
    getKind (loadSnapshotFile acc f).allResources k
      = getKind acc.allResources k ++
        ((f.content.filter (fun kv => kv.1 == k)).flatMap
          (fun kv =>
            kv.2.map
              (fun r => { r with region := some (determineRegionFromResources f.content) }))) := by
  unfold loadSnapshotFile
  exact getKind_content_fold f.content acc.allResources k _

theorem getKind_files_fold (files : List SnapshotFile) (init : LoadResult) (k : String) :
    getKind (files.foldl loadSnapshotFile init).allResources k
      = getKind init.allResources k ++
        (files.flatMap
          (fun f =>
            (f.content.filter (fun kv => kv.1 == k)).flatMap
              (fun kv =>
                kv.2.map
                  (fun r =>
                    { r with region := some (determineRegionFromResources f.content) })))) := by
  induction files generalizing init with
  | nil => simp
  | cons f rest ih =>
    rw [List.foldl_cons, ih, getKind_loadSnapshotFile, List.flatMap_cons,
      List.append_assoc]

/-! Character-level lemmas about the sanitizer and `Char.toLower`. -/

theorem sanitizeChar_isTf (c : Char) : isTfNameChar (sanitizeChar c) = true := by
  unfold sanitizeChar
  by_cases h : isTfNameChar c = true
  · rw [if_pos h]
    exact h
  · rw [if_neg h]
    decide

theorem sanitizeChar_eq_self (c : Char) (h : isTfNameChar c = true) :
    sanitizeChar c = c := by
  unfold sanitizeChar
  rw [if_pos h]

theorem toLower_eq_self (c : Char) (h : ¬ (c.toNat ≥ 65 ∧ c.toNat ≤ 90)) :
    Char.toLower c = c := by
  unfold Char.toLower
  rw [if_neg h]

theorem toLower_not_upper (c : Char) :
    ¬ ((Char.toLower c).toNat ≥ 65 ∧ (Char.toLower c).toNat ≤ 90) := by
  by_cases hu : c.toNat ≥ 65 ∧ c.toNat ≤ 90
  · unfold Char.toLower
    rw [if_pos hu]
    obtain ⟨h1, h2⟩ := hu
    set m := c.toNat with hm
    interval_cases m <;> decide
  · rw [toLower_eq_self c hu]
    exact hu

theorem toLower_idem (c : Char) : Char.toLower (Char.toLower c) = Char.toLower c :=
  toLower_eq_self (Char.toLower c) (toLower_not_upper c)

theorem toLower_isTf (c : Char) (h : isTfNameChar c = true) :
    isTfNameChar (Char.toLower c) = true := by
  by_cases hu : c.toNat ≥ 65 ∧ c.toNat ≤ 90
  · unfold Char.toLower
    rw [if_pos hu]
    obtain ⟨h1, h2⟩ := hu
    set m := c.toNat with hm
    interval_cases m <;> decide
  · rw [toLower_eq_self c hu]
    exact h

theorem toLower_isAlpha (c : Char) (h : c.isAlpha = true) :
    (Char.toLower c).isAlpha = true := by
  by_cases hu : c.toNat ≥ 65 ∧ c.toNat ≤ 90
  · unfold Char.toLower
    rw [if_pos hu]
    obtain ⟨h1, h2⟩ := hu
    set m := c.toNat with hm
    interval_cases m <;> decide
  · rw [toLower_eq_self c hu]
    exact h

theorem resourceNamePrefix_chars :
    ∀ c ∈ resourceNamePrefix, isTfNameChar c = true := by decide

theorem sanitized_chars (s : String) :
    ∀ x ∈ (sanitizeName s).data, isTfNameChar x = true ∧ Char.toLower x = x := by
  unfold sanitizeName
  intro x hx
  simp only [List.mem_map] at hx
  obtain ⟨c, hc, rfl⟩ := hx
  have hcTf : isTfNameChar c = true := by
    by_cases hcond :
        s.data.map sanitizeChar ≠ [] ∧ ¬ ((s.data.map sanitizeChar).headI).isAlpha
    · rw [if_pos hcond] at hc
      rcases List.mem_append.mp hc with hpre | hin
      · exact resourceNamePrefix_chars c hpre
      · obtain ⟨c1, _, rfl⟩ := List.mem_map.mp hin
        exact sanitizeChar_isTf c1
    · rw [if_neg hcond] at hc
      obtain ⟨c1, _, rfl⟩ := List.mem_map.mp hc
      exact sanitizeChar_isTf c1
  exact ⟨toLower_isTf c hcTf, toLower_idem c⟩

theorem sanitized_head (s : String) :
    (sanitizeName s).data = [] ∨ ((sanitizeName s).data.headI).isAlpha = true := by
  simp only [sanitizeName]
  by_cases hcond :
      s.data.map sanitizeChar ≠ [] ∧ ¬ ((s.data.map sanitizeChar).headI).isAlpha
  · right
    rw [if_pos hcond]
    show (((resourceNamePrefix ++ s.data.map sanitizeChar).map Char.toLower).headI).isAlpha = true
    rcases hd : s.data.map sanitizeChar with _ | ⟨c0, rest⟩
    · rfl
    · rfl
  · rw [if_neg hcond]
    rcases hd : s.data.map sanitizeChar with _ | ⟨c0, rest⟩
    · left
      simp [hd]
    · right
      simp only [List.map_cons, List.headI]
      push_neg at hcond
      have halpha : c0.isAlpha = true := by
        have := hcond (by rw [hd]; exact List.cons_ne_nil c0 rest)
        rw [hd] at this
        simpa using this
      exact toLower_isAlpha c0 halpha

theorem sanitizeName_of_fixed (s : String)
    (h1 : ∀ c ∈ s.data, sanitizeChar c = c)
    (h2 : ∀ c ∈ s.data, Char.toLower c = c)
    (h3 : s.data = [] ∨ (s.data.headI).isAlpha = true) :
    sanitizeName s = s := by
  simp only [sanitizeName]
  have h1' : ∀ c ∈ s.data, sanitizeChar c = id c := h1
  have ht : s.data.map sanitizeChar = s.data := by
    rw [List.map_congr_left h1', List.map_id]
  rw [ht]
  have hcond : ¬ (s.data ≠ [] ∧ ¬ (s.data.headI).isAlpha) := by
    rcases h3 with h3 | h3
    · intro hco
      exact hco.1 h3
    · intro hco
      exact hco.2 h3
  rw [if_neg hcond]
  have h2' : ∀ c ∈ s.data, Char.toLower c = id c := h2
  have hl : s.data.map Char.toLower = s.data := by
    rw [List.map_congr_left h2', List.map_id]
  rw [hl]

/-! Correctness of the decimal rendering used for collision suffixes. -/

theorem digitChar_inj (d1 d2 : Nat) (h1 : d1 < 10) (h2 : d2 < 10)
    (h : Nat.digitChar d1 = Nat.digitChar d2) : d1 = d2 := by
  interval_cases d1 <;> interval_cases d2 <;> revert h <;> decide

theorem natToDigitsCore_spec : ∀ (fuel n : Nat) (acc : List Char), n < fuel →
    natToDigitsCore fuel n acc =
      (if n = 0 then ['0'] else ((Nat.digits 10 n).map Nat.digitChar).reverse) ++ acc := by
  intro fuel
  induction fuel with
  | zero =>
    intro n acc h
    exact absurd h (Nat.not_lt_zero n)
  | succ fuel ih =>
    intro n acc h
    show (if n < 10 then Nat.digitChar (n % 10) :: acc
        else natToDigitsCore fuel (n / 10) (Nat.digitChar (n % 10) :: acc)) = _
    by_cases h10 : n < 10
    · rw [if_pos h10]
      by_cases h0 : n = 0
      · subst h0
        simp
        decide
      · rw [if_neg h0]
        have hd : Nat.digits 10 n = [n] := by
          rw [Nat.digits_def' (by norm_num : (1 : Nat) < 10) (Nat.pos_of_ne_zero h0),
            Nat.mod_eq_of_lt h10, Nat.div_eq_of_lt h10]
          simp
        rw [hd, Nat.mod_eq_of_lt h10]
        simp
    · rw [if_neg h10]
      have hn0 : 0 < n := by omega
      have hdivlt : n / 10 < fuel := by
        have hlt : n / 10 < n := Nat.div_lt_self hn0 (by norm_num)
        omega
      rw [ih (n / 10) _ hdivlt]
      have hq0 : ¬ (n / 10 = 0) := by
        intro hz
        have := (Nat.div_eq_zero_iff (by norm_num : 0 < 10)).mp hz
        omega
      rw [if_neg hq0, if_neg (by omega : ¬ (n = 0)),
        Nat.digits_def' (by norm_num : (1 : Nat) < 10) hn0]
      simp

theorem natToString_data (n : Nat) :
    (natToString n).data =
      (if n = 0 then ['0'] else ((Nat.digits 10 n).map Nat.digitChar).reverse) := by
  unfold natToString
  rw [natToDigitsCore_spec (n + 1) n [] (Nat.lt_succ_self n)]
  simp

theorem natToString_data_ne_nil (n : Nat) : (natToString n).data ≠ [] := by
  rw [natToString_data]
  by_cases h0 : n = 0
  · simp [h0]
  · rw [if_neg h0]
    simp only [ne_eq, List.reverse_eq_nil_iff, List.map_eq_nil_iff]
    exact Nat.digits_ne_nil_iff_ne_zero.mpr h0

theorem map_digitChar_inj : ∀ (l1 l2 : List Nat),
    (∀ d ∈ l1, d < 10) → (∀ d ∈ l2, d < 10) →
    l1.map Nat.digitChar = l2.map Nat.digitChar → l1 = l2 := by
  intro l1
  induction l1 with
  | nil =>
    intro l2 _ _ h
    cases l2 with
    | nil => rfl
    | cons e es => simp at h
  | cons d ds ih =>
    intro l2 h1 h2 h
    cases l2 with
    | nil => simp at h
    | cons e es =>
      simp only [List.map_cons, List.cons.injEq] at h
      have hd : d = e :=
        digitChar_inj d e (h1 d (List.mem_cons_self d ds))
          (h2 e (List.mem_cons_self e es)) h.1
      rw [hd, ih es (fun x hx => h1 x (List.mem_cons_of_mem d hx))
        (fun x hx => h2 x (List.mem_cons_of_mem e hx)) h.2]

theorem natToString_inj (a b : Nat) (h : natToString a = natToString b) : a = b := by
  have hd : (natToString a).data = (natToString b).data := by rw [h]
  rw [natToString_data, natToString_data] at hd
  by_cases ha : a = 0 <;> by_cases hb : b = 0
  · rw [ha, hb]
  · exfalso
    rw [if_pos ha, if_neg hb] at hd
    have h1 : (Nat.digits 10 b).map Nat.digitChar = ['0'] := by
      have := congrArg List.reverse hd
      simpa using this.symm
    cases hds : Nat.digits 10 b with
    | nil => rw [hds] at h1; simp at h1
    | cons d ds =>
      rw [hds] at h1
      cases ds with
      | cons d2 ds2 => simp at h1
      | nil =>
        simp only [List.map_cons, List.map_nil, List.cons.injEq] at h1
        have hdlt : d < 10 :=
          Nat.digits_lt_base (by norm_num) (hds ▸ List.mem_cons_self d [])
        have hd0 : d = 0 := digitChar_inj d 0 hdlt (by norm_num) (by simpa using h1.1)
        have hlast := Nat.getLast_digit_ne_zero 10 hb
        rw [List.getLast_congr _ (List.cons_ne_nil d []) hds] at hlast
        simp [hd0] at hlast
  · exfalso
    rw [if_neg ha, if_pos hb] at hd
    have h1 : (Nat.digits 10 a).map Nat.digitChar = ['0'] := by
      have := congrArg List.reverse hd
      simpa using this
    cases hds : Nat.digits 10 a with
    | nil => rw [hds] at h1; simp at h1
    | cons d ds =>
      rw [hds] at h1
      cases ds with
      | cons d2 ds2 => simp at h1
      | nil =>
        simp only [List.map_cons, List.map_nil, List.cons.injEq] at h1
        have hdlt : d < 10 :=
          Nat.digits_lt_base (by norm_num) (hds ▸ List.mem_cons_self d [])
        have hd0 : d = 0 := digitChar_inj d 0 hdlt (by norm_num) (by simpa using h1.1)
        have hlast := Nat.getLast_digit_ne_zero 10 ha
        rw [List.getLast_congr _ (List.cons_ne_nil d []) hds] at hlast
        simp [hd0] at hlast
  · rw [if_neg ha, if_neg hb] at hd
    have hmaps : (Nat.digits 10 a).map Nat.digitChar = (Nat.digits 10 b).map Nat.digitChar := by
      have := congrArg List.reverse hd
      simpa using this
    have hda : Nat.digits 10 a = Nat.digits 10 b :=
      map_digitChar_inj _ _ (fun d hdm => Nat.digits_lt_base (by norm_num) hdm)
        (fun d hdm => Nat.digits_lt_base (by norm_num) hdm) hmaps
    calc a = Nat.ofDigits 10 (Nat.digits 10 a) := (Nat.ofDigits_digits 10 a).symm
      _ = Nat.ofDigits 10 (Nat.digits 10 b) := by rw [hda]
      _ = b := Nat.ofDigits_digits 10 b

theorem suffixName_inj (b : String) (k1 k2 : Nat)
    (h : b ++ "_" ++ natToString k1 = b ++ "_" ++ natToString k2) : k1 = k2 := by
  have hd := congrArg String.data h
  rw [String.data_append, String.data_append] at hd
  have hs : (natToString k1).data = (natToString k2).data :=
    List.append_cancel_left hd
  exact natToString_inj k1 k2 (by apply String.ext; exact hs)

theorem base_ne_suffixName (b : String) (k : Nat) :
    b ≠ b ++ "_" ++ natToString k := by
  intro h
  have hd := congrArg String.data h
  rw [String.data_append, String.data_append] at hd
  have hlen := congrArg List.length hd
  rw [List.length_append, List.length_append] at hlen
  have hne := natToString_data_ne_nil k
  have : (natToString k).data.length ≠ 0 := fun hz => hne (List.eq_nil_of_length_eq_zero hz)
  have hone : ("_" : String).data.length = 1 := rfl
  omega

/-! Lemmas about the name resolver and its collision counters. -/

theorem measure_getResourceName (names : List (String × Nat)) (r : Resource)
    (b : String) :
    nameCounterMeasure ((getResourceName names r).2) b =
      (if baseResourceName r = b then nameCounterMeasure names b + 1
       else nameCounterMeasure names b) := by
  simp only [getResourceName, nameCounterMeasure]
  cases hl : dictLookup names (baseResourceName r) with
  | some c =>
    simp only [dictLookup_dictSet]
    by_cases hb : baseResourceName r = b
    · rw [if_pos hb, if_pos hb, ← hb, hl]
    · rw [if_neg hb, if_neg hb]
  | none =>
    simp only [dictLookup_dictSet]
    by_cases hb : baseResourceName r = b
    · rw [if_pos hb, if_pos hb, ← hb, hl]
    · rw [if_neg hb, if_neg hb]

theorem fst_getResourceName (names : List (String × Nat)) (r : Resource) :
    (getResourceName names r).1 =
      (if nameCounterMeasure names (baseResourceName r) = 0 then baseResourceName r
       else baseResourceName r ++ "_" ++
        natToString (nameCounterMeasure names (baseResourceName r))) := by
  simp only [getResourceName, nameCounterMeasure]
  cases hl : dictLookup names (baseResourceName r) with
  | some c => simp
  | none => simp

theorem measure_le_nameStateAfter (rs : List Resource) (names : List (String × Nat))
    (b : String) :
    nameCounterMeasure names b ≤ nameCounterMeasure (nameStateAfter names rs) b := by
  induction rs generalizing names with
  | nil => exact Nat.le_refl _
  | cons r rest ih =>
    have hstep := measure_getResourceName names r b
    have htail := ih ((getResourceName names r).2)
    have hcur : nameStateAfter names (r :: rest)
        = nameStateAfter ((getResourceName names r).2) rest := rfl
    rw [hcur]
    by_cases hb : baseResourceName r = b
    · rw [if_pos hb] at hstep
      omega
    · rw [if_neg hb] at hstep
      omega

theorem nameStateAfter_append (names : List (String × Nat)) (l1 l2 : List Resource) :
    nameStateAfter names (l1 ++ l2) = nameStateAfter (nameStateAfter names l1) l2 := by
  unfold nameStateAfter
  exact List.foldl_append _ _ l1 l2

theorem resolveNamesFrom_getD (rs : List Resource) (names : List (String × Nat))
    (i : Nat) (hi : i < rs.length) :
    (resolveNamesFrom names rs).getD i "" =
      (getResourceName (nameStateAfter names (rs.take i)) (rs.getD i dummyResource)).1 := by
  induction rs generalizing names i with
  | nil => cases hi
  | cons r rest ih =>
    cases i with
    | zero => rfl
    | succ i =>
      have hi' : i < rest.length := Nat.lt_of_succ_lt_succ hi
      show (resolveNamesFrom ((getResourceName names r).2) rest).getD i "" = _
      rw [ih ((getResourceName names r).2) i hi']
      rfl

theorem resolvedName_cases (b : String) (m1 m2 : Nat) (hm : m1 ≠ m2) :
    (if m1 = 0 then b else b ++ "_" ++ natToString m1) ≠
      (if m2 = 0 then b else b ++ "_" ++ natToString m2) := by
  by_cases h1 : m1 = 0 <;> by_cases h2 : m2 = 0
  · exact absurd (h1.trans h2.symm) hm
  · rw [if_pos h1, if_neg h2]
    exact base_ne_suffixName b m2
  · rw [if_neg h1, if_pos h2]
    exact fun h => base_ne_suffixName b m1 h.symm
  · rw [if_neg h1, if_neg h2]
    intro h
    exact hm (suffixName_inj b m1 m2 h)

theorem resolver_distinct_lt (rs : List Resource) (i j : Nat) (hij : i < j)
    (hj : j < rs.length)
    (hbase : baseResourceName (rs.getD i dummyResource)
      = baseResourceName (rs.getD j dummyResource)) :
    (resolveNames rs).getD i "" ≠ (resolveNames rs).getD j "" := by
  have hi : i < rs.length := Nat.lt_trans hij hj
  have hgi := resolveNamesFrom_getD rs [] i hi
  have hgj := resolveNamesFrom_getD rs [] j hj
  set b := baseResourceName (rs.getD i dummyResource) with hb
  set sti := nameStateAfter [] (rs.take i) with hsti
  set stj := nameStateAfter [] (rs.take j) with hstj
  have htake : rs.take (i + 1) = rs.take i ++ [rs.getD i dummyResource] := by
    rw [List.take_succ, List.getElem?_eq_getElem hi,
      List.getD_eq_getElem rs dummyResource hi]
    rfl
  have hstep : nameCounterMeasure (nameStateAfter [] (rs.take (i + 1))) b
      = nameCounterMeasure sti b + 1 := by
    rw [htake, nameStateAfter_append]
    have : nameStateAfter sti [rs.getD i dummyResource]
        = (getResourceName sti (rs.getD i dummyResource)).2 := rfl
    rw [this, measure_getResourceName, if_pos hb.symm]
  have hsplit : stj = nameStateAfter (nameStateAfter [] (rs.take (i + 1)))
      ((rs.take j).drop (i + 1)) := by
    rw [hstj, ← nameStateAfter_append]
    congr 1
    have h1 : (rs.take j).take (i + 1) = rs.take (i + 1) := by
      rw [List.take_take]
      congr 1
      omega
    calc rs.take j = (rs.take j).take (i + 1) ++ (rs.take j).drop (i + 1) :=
          (List.take_append_drop (i + 1) (rs.take j)).symm
      _ = rs.take (i + 1) ++ (rs.take j).drop (i + 1) := by rw [h1]
  have hmono : nameCounterMeasure (nameStateAfter [] (rs.take (i + 1))) b
      ≤ nameCounterMeasure stj b := by
    rw [hsplit]
    exact measure_le_nameStateAfter _ _ b
  have hmne : nameCounterMeasure sti b ≠ nameCounterMeasure stj b := by omega
  show (resolveNamesFrom [] rs).getD i "" ≠ (resolveNamesFrom [] rs).getD j ""
  rw [hgi, hgj, fst_getResourceName, fst_getResourceName, ← hbase, ← hb]
  exact resolvedName_cases b _ _ hmne

/-! The loader never consults modification times. -/

theorem loadAllDiscoveredResources_mtime (files : List SnapshotFile)
    (g : SnapshotFile → Nat) :
    loadAllDiscoveredResources (some (files.map (fun f => { f with mtime := g f })))
      = loadAllDiscoveredResources (some files) := by
  simp only [loadAllDiscoveredResources]
  rw [List.filter_map]
  have hp : ((fun f => isDiscoveryFileName f.name) ∘
      (fun f : SnapshotFile => { f with mtime := g f }))
      = (fun f : SnapshotFile => isDiscoveryFileName f.name) := by
    funext f
    rfl
  rw [hp]
  have hfold : ∀ (l : List SnapshotFile) (init : LoadResult),
      (l.map (fun f => { f with mtime := g f })).foldl loadSnapshotFile init
        = l.foldl loadSnapshotFile init := by
    intro l
    induction l with
    | nil => intro init; rfl
    | cons f rest ih =>
      intro init
      rw [List.map_cons, List.foldl_cons, List.foldl_cons]
      have hstep : loadSnapshotFile init { f with mtime := g f }
          = loadSnapshotFile init f := rfl
      rw [hstep, ih]
  cases he : (files.filter (fun f => isDiscoveryFileName f.name)) with
  | nil => rfl
  | cons f rest =>
    simp only [List.isEmpty_cons, List.map_cons, Bool.false_eq_true, if_false]
    exact hfold (f :: rest) _

/-! Claim theorems. -/

/-- C1 counterexample: with the discovery-output directory absent, the
generate entry point exits with status 0 (not non-zero) and still writes
configuration files into the output directory, refuting the claim as
stated. -/
theorem claim_c1_counterexample :
    (terraformGeneratorMain none).exitCode = 0 ∧
      (terraformGeneratorMain none).filesWritten ≠ [] := by
  decide

/-- C1 (amended): when the discovery-output directory is absent or contains
no matching snapshot file, the loader logs the error and returns an empty
resource dict, and the generate entry point continues: it exits 0 and
writes the full static configuration bundle, whose import-directive and
declaration sections are empty. -/
theorem claim_c1_amended (listing : Option (List SnapshotFile))
    (h : listing = none ∨
      ∃ files, listing = some files ∧
        files.filter (fun f => isDiscoveryFileName f.name) = []) :
    (terraformGeneratorMain listing).exitCode = 0 ∧
      (terraformGeneratorMain listing).resources = [] ∧
      (terraformGeneratorMain listing).filesWritten =
        ["terraform/main.tf", "terraform/variables.tf", "terraform/outputs.tf",
          "terraform/providers.tf", "terraform/modules/example.tf"] ∧
      generateImportBlocks (terraformGeneratorMain listing).resources = [] ∧
      generateResourceBlocks (terraformGeneratorMain listing).resources = [] := by
  have hload : loadAllDiscoveredResources listing = ⟨[], []⟩ := by
    rcases h with h | ⟨files, hf, hfilter⟩
    · rw [h]
      rfl
    · rw [hf]
      simp only [loadAllDiscoveredResources]
      rw [hfilter]
      rfl
  refine ⟨?_, ?_, ?_, ?_, ?_⟩ <;>
    simp [terraformGeneratorMain, hload, generateImportBlocks,
      generateResourceBlocks, allResourcesOf]

/-- C1 witness: the amended claim at the concrete input `none` (absent
directory). -/
theorem claim_c1_witness :
    (terraformGeneratorMain none).exitCode = 0 ∧
      (terraformGeneratorMain none).resources = [] ∧
      (terraformGeneratorMain none).filesWritten =
        ["terraform/main.tf", "terraform/variables.tf", "terraform/outputs.tf",
          "terraform/providers.tf", "terraform/modules/example.tf"] ∧
      generateImportBlocks (terraformGeneratorMain none).resources = [] ∧
      generateResourceBlocks (terraformGeneratorMain none).resources = [] :=
  claim_c1_amended none (Or.inl rfl)

/-- C2 counterexample: two matching discovery files resolve to the same
region `us-east-1` and the older file's instance still appears in the
merged resource set, refuting the claimed newest-per-region selection. -/
theorem claim_c2_counterexample :
    determineRegionFromResources c2OldFile.content = "us-east-1" ∧
      determineRegionFromResources c2NewFile.content = "us-east-1" ∧
      c2OldFile.mtime < c2NewFile.mtime ∧
      { c2OldInstance with region := some "us-east-1" } ∈
        getKind (loadAllDiscoveredResources (some [c2NewFile, c2OldFile])).allResources
          "ec2_instances" := by
  decide

/-- C2 (amended): the loader merges EVERY matching discovery file — for
each kind, the merged entry is the concatenation, in listing order, of all
matching files' resources of that kind annotated with the region inferred
from the containing file — and the result is invariant under arbitrary
changes of the files' modification times (they are never consulted). -/
theorem claim_c2_amended (files : List SnapshotFile) (k : String)
    (g : SnapshotFile → Nat) :
    (getKind (loadAllDiscoveredResources (some files)).allResources k
      = (files.filter (fun f => isDiscoveryFileName f.name)).flatMap
          (fun f =>
            (f.content.filter (fun kv => kv.1 == k)).flatMap
              (fun kv =>
                kv.2.map
                  (fun r =>
                    { r with
                      region := some (determineRegionFromResources f.content) })))) ∧
    loadAllDiscoveredResources (some (files.map (fun f => { f with mtime := g f })))
      = loadAllDiscoveredResources (some files) := by
  constructor
  · simp only [loadAllDiscoveredResources]
    cases he : files.filter (fun f => isDiscoveryFileName f.name) with
    | nil => rfl
    | cons f rest =>
      simp only [List.isEmpty_cons, Bool.false_eq_true, if_false]
      rw [← he, getKind_files_fold]
      rfl
  · exact loadAllDiscoveredResources_mtime files g

/-- C3: evaluation at the failing input.  For the snapshot with one
resource of each of the fourteen supported kinds plus one resource of the
unsupported kind `aws_ebs_snapshot`, generation emits fifteen import
directives and fifteen placeholder declaration blocks: the unsupported
kind is rendered rather than silently skipped, because the later generic
definitions of the block generators shadow the per-kind ones. -/
theorem claim_c3_code_divergence :
    (generateImportBlocks c3Snapshot).length = 15 ∧
      (generateResourceBlocks c3Snapshot).length = 15 ∧
      generateImportBlock c3SnapshotResource ≠ "" ∧
      generateResourceBlock c3SnapshotResource "us_east_1" ≠ "" := by
  decide

set_option maxRecDepth 10000 in
/-- C4: evaluation at the failing input.  The name resolver, applied to the
two running `Name=web` instances in order, does return `web` and `web_1`;
but the emitted import blocks (and declaration blocks) name the instances
from the provider id (`instance_i_0001`, `instance_i_0002`), because the
effective block generators use `_generate_safe_resource_name` and never
consult the resolver. -/
theorem claim_c4_code_divergence :
    resolveNames [webInstanceA, webInstanceB] = ["web", "web_1"] ∧
      generateImportBlocks twoWebSnapshot =
        ["import \x7b\n  to = aws_instance.instance_i_0001\n  id = \"i-0001\"\n\x7d",
         "import \x7b\n  to = aws_instance.instance_i_0002\n  id = \"i-0002\"\n\x7d"] ∧
      generateResourceBlocks twoWebSnapshot =
        ["resource \"aws_instance\" \"instance_i_0001\" \x7b\n  provider = aws.us_east_1\n  # Resource configuration would be generated here\n  # This is a placeholder - full configuration needs to be implemented\n\x7d",
         "resource \"aws_instance\" \"instance_i_0002\" \x7b\n  provider = aws.us_east_1\n  # Resource configuration would be generated here\n  # This is a placeholder - full configuration needs to be implemented\n\x7d"] := by
  decide

/-- C5 counterexample: in the run `Name=web`, `Name=web`, `Name=web_1` the
resolver returns `web`, `web_1`, `web_1` — the third resource's tag-derived
base name coincides with the already-suffixed name of the second, and the
returned symbolic names are not pairwise distinct. -/
theorem claim_c5_counterexample :
    resolveNames [webInstanceA, webInstanceB, webInstanceC]
        = ["web", "web_1", "web_1"] ∧
      ¬ (resolveNames [webInstanceA, webInstanceB, webInstanceC]).Nodup := by
  decide

/-- C5 (amended): resolution over the same ordered list is deterministic,
and any two distinct positions whose resources share the same sanitized
base name receive distinct symbolic names.  (Distinctness across different
base names can fail when a base name coincides with an already-suffixed
name, see the counterexample.) -/
theorem claim_c5_amended :
    (∀ rs1 rs2 : List Resource, rs1 = rs2 → resolveNames rs1 = resolveNames rs2) ∧
    (∀ (rs : List Resource) (i j : Nat), i < rs.length → j < rs.length → i ≠ j →
      baseResourceName (rs.getD i dummyResource)
          = baseResourceName (rs.getD j dummyResource) →
      (resolveNames rs).getD i "" ≠ (resolveNames rs).getD j "") := by
  constructor
  · intro rs1 rs2 h
    rw [h]
  · intro rs i j hi hj hij hbase
    rcases Nat.lt_or_ge i j with hlt | hge
    · exact resolver_distinct_lt rs i j hlt hj hbase
    · have hlt : j < i := Nat.lt_of_le_of_ne hge (fun h => hij h.symm)
      exact fun h => resolver_distinct_lt rs j i hlt hi hbase.symm h.symm

/-- C5 witness: the amended claim applied to the two `Name=web` instances
at positions 0 and 1. -/
theorem claim_c5_witness :
    (0 : Nat) ≠ 1 ∧
      (resolveNames [webInstanceA, webInstanceB]).getD 0 ""
        ≠ (resolveNames [webInstanceA, webInstanceB]).getD 1 "" :=
  ⟨by decide,
    claim_c5_amended.2 [webInstanceA, webInstanceB] 0 1 (by decide) (by decide)
      (by decide) (by decide)⟩

/-- C6: terminal-state resources are excluded at probe time: the instance
probe returns exactly the instances whose state is neither `terminated` nor
`shutting-down`, the volume probe exactly the volumes whose state is
neither `deleted` nor `deleting`, and the NAT gateway probe exactly the
gateways whose state is neither `deleted` nor `deleting` — each in
response order, so terminal-state resources are absent and all others are
included. -/
theorem claim_c6_terminal_state_filtering :
    (∀ rs : List Reservation,
      discoverEc2Instances rs =
        (((rs.flatMap (fun res => res.instances)).filter
          (fun i => !(i.stateName == "terminated" || i.stateName == "shutting-down"))).map
          instanceResource)) ∧
    (∀ vols : List VolumeRaw,
      discoverVolumes vols =
        ((vols.filter (fun v => !(v.state == "deleted" || v.state == "deleting"))).map
          volumeResource)) ∧
    (∀ gs : List NatGatewayRaw,
      discoverNatGateways gs =
        ((gs.filter (fun g => !(g.state == "deleted" || g.state == "deleting"))).map
          natGatewayResource)) :=
  ⟨discoverEc2Instances_eq, discoverVolumes_eq, discoverNatGateways_eq⟩

/-- C7: partial-failure isolation: when one probe (and any probe of its
kind) raises a provider error on every state, the finished run — which is a
total function, so the error is never fatal — contains no entry for that
kind (it contributes zero resources), while every probe that returns
normally still contributes an entry for its kind. -/
theorem claim_c7_partial_failure_isolation (ps : List Probe) (p : Probe)
    (hmem : p ∈ ps) (hfail : probeFails p)
    (hsame : ∀ q ∈ ps, q.kind = p.kind → probeFails q) :
    dictLookup (runProbes ps) p.kind = none ∧
      (∀ q ∈ ps, probeSucceeds q →
        (dictLookup (runProbes ps) q.kind).isSome = true) := by
  constructor
  · exact dictLookup_foldl_probeStep_none ps [] p.kind rfl hsame
  · intro q hq hok
    exact isSome_foldl_probeStep_of_mem ps [] q hq hok

/-- C7 witness: in the concrete three-probe run where the VPC probe fails,
the snapshot has no `vpcs` entry but the instance probe's entry is
present. -/
theorem claim_c7_witness :
    dictLookup (runProbes c7DemoProbes) "vpcs" = none ∧
      (dictLookup (runProbes c7DemoProbes)
        (ec2Probe (Except.ok [⟨[⟨"i-1", "running", none, []⟩]⟩])).kind).isSome = true := by
  have hfail : probeFails (vpcsProbe (Except.error (ClientError.clientError "AccessDenied"))) :=
    fun d => ⟨ClientError.clientError "AccessDenied", rfl⟩
  have hsame : ∀ q ∈ c7DemoProbes,
      q.kind = (vpcsProbe (Except.error (ClientError.clientError "AccessDenied"))).kind →
      probeFails q := by
    intro q hq hk
    simp only [c7DemoProbes, List.mem_cons, List.not_mem_nil, or_false] at hq
    rcases hq with hq | hq | hq
    · rw [hq] at hk
      exact absurd hk (by decide)
    · rw [hq]
      exact hfail
    · rw [hq] at hk
      exact absurd hk (by decide)
  have main := claim_c7_partial_failure_isolation c7DemoProbes
    (vpcsProbe (Except.error (ClientError.clientError "AccessDenied")))
    (List.mem_cons_of_mem _ (List.mem_cons_self _ _)) hfail hsame
  refine ⟨main.1, ?_⟩
  refine main.2 (ec2Probe (Except.ok [⟨[⟨"i-1", "running", none, []⟩]⟩]))
    (List.mem_cons_self _ _) ?_
  intro d
  exact ⟨discoverEc2Instances [⟨[⟨"i-1", "running", none, []⟩]⟩], rfl⟩

/-- C8 counterexample: sanitization does not leave characters of the class
untouched — the uppercase letter `W` (inside `[A-Za-z0-9_-]`) is lowercased
— and the empty string is not prefixed even though it does not start with a
letter. -/
theorem claim_c8_counterexample :
    sanitizeName "Web" = "web" ∧ sanitizeName "Web" ≠ "Web" ∧ sanitizeName "" = "" := by
  decide

/-- C8 (amended): the sanitizer substitutes `_` for exactly the characters
outside `[A-Za-z0-9_-]`, prefixes `resource_` exactly when the substituted
string is nonempty and does not start with a letter, and finally lowercases
the whole result; characters already in the lowercase class `[a-z0-9_-]`
come through unchanged, while uppercase letters are lowercased. -/
theorem claim_c8_amended (s : String) :
    ((sanitizeName s).data = (s.data.map sanitizeChar).map Char.toLower ∨
      (sanitizeName s).data =
        resourceNamePrefix ++ (s.data.map sanitizeChar).map Char.toLower) ∧
    ((sanitizeName s).data =
        resourceNamePrefix ++ (s.data.map sanitizeChar).map Char.toLower ↔
      s.data ≠ [] ∧ ((s.data.map sanitizeChar).headI).isAlpha = false) ∧
    (∀ c : Char, (c.isLower || c.isDigit || c == '_' || c == '-') = true →
      Char.toLower (sanitizeChar c) = c) := by
  refine ⟨?_, ?_, ?_⟩
  · simp only [sanitizeName]
    by_cases hcond :
        s.data.map sanitizeChar ≠ [] ∧ ¬ ((s.data.map sanitizeChar).headI).isAlpha
    · right
      rw [if_pos hcond, List.map_append]
      have hpre : resourceNamePrefix.map Char.toLower = resourceNamePrefix := by decide
      rw [hpre]
    · left
      rw [if_neg hcond]
  · simp only [sanitizeName]
    by_cases hcond :
        s.data.map sanitizeChar ≠ [] ∧ ¬ ((s.data.map sanitizeChar).headI).isAlpha
    · rw [if_pos hcond, List.map_append]
      have hpre : resourceNamePrefix.map Char.toLower = resourceNamePrefix := by decide
      rw [hpre]
      constructor
      · intro _
        refine ⟨fun hnil => hcond.1 (by rw [hnil]; rfl), ?_⟩
        exact Bool.not_eq_true _ ▸ (by simpa using hcond.2)
      · intro _
        rfl
    · rw [if_neg hcond]
      constructor
      · intro h
        exfalso
        have hlen := congrArg List.length h
        rw [List.length_append] at hlen
        have : resourceNamePrefix.length = 9 := by decide
        omega
      · intro hrhs
        exfalso
        apply hcond
        refine ⟨fun hnil => hrhs.1 (List.map_eq_nil_iff.mp hnil), ?_⟩
        intro halpha
        rw [hrhs.2] at halpha
        cases halpha
  · intro c hc
    simp only [Bool.or_eq_true, beq_iff_eq] at hc
    have hTf : isTfNameChar c = true := by
      rcases hc with ((hl | hd) | hu) | hh
      · simp [isTfNameChar, Char.isAlpha, hl]
      · simp [isTfNameChar, hd]
      · simp [isTfNameChar, hu]
      · simp [isTfNameChar, hh]
    rw [sanitizeChar_eq_self c hTf]
    rcases hc with ((hl | hd) | hu) | hh
    · simp only [Char.isLower, Bool.and_eq_true, decide_eq_true_eq] at hl
      apply toLower_eq_self
      intro hup
      have h97 : (97 : Nat) ≤ c.toNat := hl.1
      omega
    · simp only [Char.isDigit, Bool.and_eq_true, decide_eq_true_eq] at hd
      apply toLower_eq_self
      intro hup
      have h57 : c.toNat ≤ 57 := hd.2
      omega
    · rw [hu]
      decide
    · rw [hh]
      decide

/-- C9: sanitization is idempotent — sanitizing an already-sanitized name
returns it unchanged. -/
theorem claim_c9_sanitize_idempotent (s : String) :
    sanitizeName (sanitizeName s) = sanitizeName s := by
  apply sanitizeName_of_fixed
  · intro c hc
    exact sanitizeChar_eq_self c ((sanitized_chars s c hc).1)
  · intro c hc
    exact (sanitized_chars s c hc).2
  · exact sanitized_head s

/-- C10: the discovery module never creates the snapshot output directory:
with the directory absent, the run returns the uncaught file error of the
snapshot write and persists nothing, independently of the probe outcomes;
with the directory present, the fully gathered probe results are persisted
under the timestamped filename — so the failure happens only after the
probe phase. -/
theorem claim_c10_save_requires_directory :
    (∀ (ps : List Probe) (ts : String),
      discoverAllResources ps false ts = Except.error IoError.fileNotFound) ∧
    (∀ (ps : List Probe) (ts : String),
      discoverAllResources ps true ts =
        Except.ok (runProbes ps,
          "terraform_output/discovered_resources_" ++ ts ++ ".json")) := by
  constructor
  · intro ps ts
    rfl
  · intro ps ts
    rfl

/-- C8 witness: the amended characterization applied at the concrete input
`Web`. -/
theorem claim_c8_witness :
    (sanitizeName "Web").data = ("Web".data.map sanitizeChar).map Char.toLower ∨
      (sanitizeName "Web").data =
        resourceNamePrefix ++ ("Web".data.map sanitizeChar).map Char.toLower :=
  (claim_c8_amended "Web").1
